import Mathlib

/-!
Verification development for the cadence document pipeline
(`src/processing/clean_document.py`, `src/processing/classify_document.py`,
`src/dedup/deduplicator.py`).

Python strings are modelled as `List Char` (`Str`).  Compiled `re` patterns
are modelled by executable backtracking matchers (`CM`) that track the
previous character so that word boundaries (`\b`) and lookbehinds can be
evaluated; each table of compiled patterns from the source is transcribed
pattern by pattern.  Python `float` confidence arithmetic is modelled by
exact rational arithmetic (`ℚ`); every constant appearing in the source
(0.5, 0.9, 0.1, 0.3, ...) is exactly representable, and all comparisons
performed by the code distinguish the same cases over `ℚ` as over doubles
for these constants.
-/

/-- Python strings are modelled as lists of characters. -/
abbrev Str := List Char

namespace Cadence

/-- Models Python `str.isspace` / the characters stripped by `str.strip()`
(ASCII whitespace plus the common Unicode cases used in this development). -/
def pyIsSpace (c : Char) : Bool :=
  c = ' ' || c = '\t' || c = '\n' || c = '\r' || c.val = 11 || c.val = 12 ||
  c.val = 0x1c || c.val = 0x1d || c.val = 0x1e || c.val = 0x1f ||
  c.val = 0x85 || c.val = 0xa0

/-- Models Python `str.strip()` with no argument: remove leading and trailing
whitespace. -/
def pyStrip (l : Str) : Str :=
  ((l.dropWhile pyIsSpace).reverse.dropWhile pyIsSpace).reverse

/-- Models Python `str.lower()` (ASCII case folding; all the pattern text in
the source is ASCII). -/
def lowerStr (l : Str) : Str := l.map Char.toLower

theorem length_dropWhile_le (p : Char → Bool) (l : Str) :
    (l.dropWhile p).length ≤ l.length := by
  induction l with
  | nil => simp [List.dropWhile]
  | cons c r ih =>
    by_cases hc : p c
    · simp only [List.dropWhile, hc]
      exact Nat.le_succ_of_le ih
    · simp [List.dropWhile, hc]

/-- Character class `\s` of Python `re` (ASCII part; the patterns in the
source are only ever required to recognise ASCII whitespace). -/
def reSpace (c : Char) : Bool :=
  c = ' ' || c = '\t' || c = '\n' || c = '\r' || c.val = 11 || c.val = 12

/-- Character class `\w` of Python `re` (ASCII part). -/
def isWordChar (c : Char) : Bool :=
  c.isAlphanum || c = '_'

/-- Split a text into its lines, i.e. Python `text.split("\n")`. -/
def splitLines : Str → List Str
  | [] => [[]]
  | c :: r =>
    if c = '\n' then [] :: splitLines r
    else
      match splitLines r with
      | [] => [[c]]
      | h :: t => (c :: h) :: t

/-- Join lines with a newline, i.e. Python `"\n".join(lines)`. -/
def joinLines : List Str → Str
  | [] => []
  | [x] => x
  | x :: xs => x ++ '\n' :: joinLines xs

theorem splitLines_ne_nil (l : Str) : splitLines l ≠ [] := by
  induction l with
  | nil => simp [splitLines]
  | cons c r ih =>
    simp only [splitLines]
    split
    · simp
    · split
      · simp
      · simp

theorem splitLines_no_newline (l : Str) :
    ∀ x ∈ splitLines l, '\n' ∉ x := by
  induction l with
  | nil =>
    intro x hx
    simp [splitLines] at hx
    simp [hx]
  | cons c r ih =>
    intro x hx
    simp only [splitLines] at hx
    by_cases hc : c = '\n'
    · rw [if_pos hc] at hx
      rcases List.mem_cons.mp hx with h | h
      · simp [h]
      · exact ih x h
    · rw [if_neg hc] at hx
      rcases hsp : splitLines r with _ | ⟨h0, t0⟩
      · exact absurd hsp (splitLines_ne_nil r)
      · rw [hsp] at hx
        rcases List.mem_cons.mp hx with h | h
        · subst h
          intro hmem
          rcases List.mem_cons.mp hmem with h' | h'
          · exact hc h'.symm
          · exact ih h0 (hsp ▸ List.mem_cons_self h0 t0) h'
        · exact ih x (hsp ▸ List.mem_cons_of_mem h0 h)

theorem splitLines_append_newline (a b : Str) :
    splitLines (a ++ '\n' :: b) = splitLines a ++ splitLines b := by
  induction a with
  | nil => simp [splitLines]
  | cons c r ih =>
    by_cases hc : c = '\n'
    · simp only [List.cons_append, splitLines, if_pos hc]
      rw [show r.append ('\n' :: b) = r ++ '\n' :: b from rfl, ih]
    · simp only [List.cons_append, splitLines, if_neg hc]
      rw [show r.append ('\n' :: b) = r ++ '\n' :: b from rfl, ih]
      rcases hsp : splitLines r with _ | ⟨h0, t0⟩
      · exact absurd hsp (splitLines_ne_nil r)
      · simp

theorem splitLines_of_no_newline (x : Str) (hx : '\n' ∉ x) :
    splitLines x = [x] := by
  induction x with
  | nil => simp [splitLines]
  | cons c r ih =>
    have hc : c ≠ '\n' := fun h => hx (h ▸ List.mem_cons_self c r)
    have hr : '\n' ∉ r := fun h => hx (List.mem_cons_of_mem c h)
    simp [splitLines, hc, ih hr]

theorem mem_splitLines_joinLines (ls : List Str) (x : Str)
    (hmem : x ∈ ls) (hx : '\n' ∉ x) : x ∈ splitLines (joinLines ls) := by
  induction ls with
  | nil => cases hmem
  | cons y ys ih =>
    rcases ys with _ | ⟨z, zs⟩
    · rcases List.mem_cons.mp hmem with h | h
      · subst h
        simp [joinLines, splitLines_of_no_newline x hx]
      · cases h
    · have hjoin : joinLines (y :: z :: zs) = y ++ '\n' :: joinLines (z :: zs) := rfl
      rw [hjoin, splitLines_append_newline]
      rcases List.mem_cons.mp hmem with h | h
      · subst h
        exact List.mem_append_left _ (by simp [splitLines_of_no_newline x hx])
      · exact List.mem_append_right _ (ih h)

/-!
Matchers modelling compiled `re` patterns.  A matcher receives the character
preceding the current position (needed for `\b` and lookbehind) and the rest
of the input, and returns, in the backtracking priority order of the Python
regex engine, every pair (last consumed character, remaining input) reachable
by matching a prefix of the input.
-/

/-- Matcher for a compiled pattern fragment: previous character and remaining
input in, list of (new previous character, remaining input) out, in
backtracking priority order. -/
def CM : Type := Option Char → Str → List (Option Char × Str)

/-- Matches the empty string. -/
def cmEps : CM := fun pv l => [(pv, l)]

/-- Matches nothing. -/
def cmFail : CM := fun _ _ => []

/-- Matches one character of the given class. -/
def cmChar (p : Char → Bool) : CM := fun _ l =>
  match l with
  | [] => []
  | c :: r => if p c then [(some c, r)] else []

/-- Sequencing of two pattern fragments. -/
def cmSeq (a b : CM) : CM := fun pv l => (a pv l).flatMap fun pr => b pr.1 pr.2

/-- Alternation, left branch preferred (regex `|`). -/
def cmAlt (a b : CM) : CM := fun pv l => a pv l ++ b pv l

/-- Alternation over a list of fragments, first preferred. -/
def cmAlts (ms : List CM) : CM := ms.foldr cmAlt cmFail

/-- Sequencing over a list of fragments. -/
def cmSeqs (ms : List CM) : CM := ms.foldr cmSeq cmEps

/-- Greedy option (regex `X?`): with `X` preferred. -/
def cmOpt (a : CM) : CM := fun pv l => a pv l ++ [(pv, l)]

/-- Greedy Kleene star over a character class (regex `[..]*`): longest
match preferred. -/
def cmManyG (p : Char → Bool) : CM
  | pv, [] => [(pv, [])]
  | pv, c :: r => (if p c then cmManyG p (some c) r else []) ++ [(pv, c :: r)]

/-- Greedy plus over a character class (regex `[..]+`). -/
def cmMany1G (p : Char → Bool) : CM := cmSeq (cmChar p) (cmManyG p)

/-- Lazy star over a character class (regex `[..]*?` and `.*?`): shortest
match preferred. -/
def cmLazyStar (p : Char → Bool) : CM
  | pv, [] => [(pv, [])]
  | pv, c :: r => (pv, c :: r) :: (if p c then cmLazyStar p (some c) r else [])

/-- Case-sensitive literal. -/
def cmLit (s : Str) : CM := cmSeqs (s.map fun ch => cmChar (· = ch))

/-- Case-insensitive literal (for patterns compiled with `re.IGNORECASE`). -/
def cmLitI (s : Str) : CM :=
  cmSeqs (s.map fun ch => cmChar (fun c => c.toLower = ch.toLower))

/-- Exactly `n` repetitions (regex `X{n}`). -/
def cmRep (m : CM) (n : Nat) : CM := cmSeqs (List.replicate n m)

/-- Whether an optional previous character is a word character (`none` at
the start of the input behaves as a non-word position). -/
def isWordOpt : Option Char → Bool
  | none => false
  | some c => isWordChar c

/-- Word boundary (regex `\b`): consumes nothing, succeeds when exactly one
of the neighbouring positions is a word character. -/
def cmBoundary : CM := fun pv l =>
  if isWordOpt pv ≠ isWordOpt l.head? then [(pv, l)] else []

/-- End of input (regex `$` when matching a single line). -/
def cmEnd : CM := fun pv l =>
  match l with
  | [] => [(pv, [])]
  | _ :: _ => []

/-- Whether the pattern matches a prefix of `l` with previous character
`pv`. -/
def cmMatches (m : CM) (pv : Option Char) (l : Str) : Bool :=
  !(m pv l).isEmpty

/-- Search for a match at any position, threading the previous character. -/
def cmSearchAux (m : CM) : Option Char → Str → Bool
  | pv, [] => cmMatches m pv []
  | pv, c :: r => cmMatches m pv (c :: r) || cmSearchAux m (some c) r

/-- Models `pattern.search(l) is not None` for a whole string. -/
def cmSearch (m : CM) (l : Str) : Bool := cmSearchAux m none l

/-- Models `pattern.search(l) is not None` for a pattern anchored with `^`
applied to a single line: the match must start at position 0. -/
def cmMatchAtStart (m : CM) (l : Str) : Bool := cmMatches m none l

/-- Fuel-indexed worker for `cmSubstAll`; every step strictly shortens the
input, so fuel equal to the input length suffices. -/
def cmSubstAllAux (m : CM) : Nat → Option Char → Str → Str
  | 0, _, l => l
  | _, _, [] => []
  | fuel + 1, pv, c :: r =>
    match (m pv (c :: r)).head? with
    | some pr =>
      if pr.2.length < (c :: r).length then ' ' :: cmSubstAllAux m fuel pr.1 pr.2
      else c :: cmSubstAllAux m fuel (some c) r
    | none => c :: cmSubstAllAux m fuel (some c) r

/-- Models `pattern.sub(" ", l)`: replace every non-overlapping match
(leftmost, engine-preferred) by a single space.  Empty matches are treated
as failures; no pattern in the source can match the empty string. -/
def cmSubstAll (m : CM) (pv : Option Char) (l : Str) : Str :=
  cmSubstAllAux m l.length pv l

/-! Shorthand fragments shared by the transcribed patterns. -/

/-- Regex `\s+`. -/
def ws1 : CM := cmMany1G reSpace

/-- Regex `\s*`. -/
def wsS : CM := cmManyG reSpace

/-- Regex `\.?`. -/
def optDot : CM := cmOpt (cmChar (· = '.'))

/-- Regex `\d+`. -/
def digits1 : CM := cmMany1G Char.isDigit

/-- Regex `\d{n}`. -/
def digitRep (n : Nat) : CM := cmRep (cmChar Char.isDigit) n

/-- Regex `\d{1,2}` (greedy: two digits preferred). -/
def digit12 : CM := cmAlt (digitRep 2) (digitRep 1)

/-- Case-insensitive literal with an optional trailing `s` (regex `words?`). -/
def cmLitIOptS (s : String) : CM :=
  cmSeqs [cmLitI s.toList, cmOpt (cmChar fun c => c.toLower = 's')]

/-- Case-insensitive words separated by `\s+`. -/
def cmWordsI (words : List String) : CM :=
  cmSeqs ((words.map fun s => cmLitI s.toList).intersperse ws1)

/-!
Embeds `_PROTECTED_PATTERNS` from `clean_document.py`: lines matching any of
these are never removed by boilerplate removal.
-/

/-- Embeds `\b(CAD|DR|case|report\s+no\.?|badge|ORI)[#:\s]+[\w-]+`
(IGNORECASE). -/
def protCasePat : CM :=
  cmSeqs [cmBoundary,
    cmAlts [cmLitI ("cad".toList), cmLitI ("dr".toList), cmLitI ("case".toList),
      cmSeqs [cmLitI ("report".toList), ws1, cmLitI ("no".toList), optDot],
      cmLitI ("badge".toList), cmLitI ("ori".toList)],
    cmMany1G (fun c => c = '#' || c = ':' || reSpace c),
    cmMany1G (fun c => isWordChar c || c = '-')]

/-- Regex `St|Ave|Blvd|Dr|Rd|Ln|Way|Ct|Pl|Hwy|Fwy|Pkwy|Cir|Ter|Loop`
(IGNORECASE). -/
def streetTypeAlt : CM :=
  cmAlts (["st", "ave", "blvd", "dr", "rd", "ln", "way", "ct", "pl", "hwy",
    "fwy", "pkwy", "cir", "ter", "loop"].map fun s => cmLitI s.toList)

/-- Embeds the street-address pattern
`\d+\s+(?:[NSEW]\.?\s+)?[A-Za-z][\w\s]+\s+(?:St|Ave|...|Loop)\.?\b`
(IGNORECASE). -/
def protAddressPat : CM :=
  cmSeqs [digits1, ws1,
    cmOpt (cmSeqs [cmChar (fun c => c.toLower = 'n' || c.toLower = 's' ||
      c.toLower = 'e' || c.toLower = 'w'), optDot, ws1]),
    cmChar Char.isAlpha,
    cmMany1G (fun c => isWordChar c || reSpace c),
    ws1, streetTypeAlt, optDot, cmBoundary]

/-- Embeds `\b\d{1,2}/\d{1,2}/\d{4}\b`. -/
def protDateSlashPat : CM :=
  cmSeqs [cmBoundary, digit12, cmChar (· = '/'), digit12, cmChar (· = '/'),
    digitRep 4, cmBoundary]

/-- Embeds `\b\d{4}-\d{2}-\d{2}\b`. -/
def protDateIsoPat : CM :=
  cmSeqs [cmBoundary, digitRep 4, cmChar (· = '-'), digitRep 2,
    cmChar (· = '-'), digitRep 2, cmBoundary]

/-- Full month names. -/
def monthNamesLong : List String :=
  ["january", "february", "march", "april", "may", "june", "july", "august",
   "september", "october", "november", "december"]

/-- Abbreviated month names as they appear in the "Month DD, YYYY" protected
pattern (the source's abbreviation list omits `May` there). -/
def monthAbbrevNoMay : List String :=
  ["jan", "feb", "mar", "apr", "jun", "jul", "aug", "sep", "oct", "nov", "dec"]

/-- Abbreviated month names including `May` (used by the weekday pattern and
the quality-score date pattern). -/
def monthAbbrevWithMay : List String :=
  ["jan", "feb", "mar", "apr", "may", "jun", "jul", "aug", "sep", "oct",
   "nov", "dec"]

/-- Embeds the "Month DD, YYYY" pattern (long and abbreviated month names,
IGNORECASE). -/
def protDateLongPat : CM :=
  cmSeqs [cmBoundary,
    cmAlts ((monthNamesLong ++ monthAbbrevNoMay).map fun s => cmLitI s.toList),
    optDot, ws1, digit12, cmChar (· = ','), ws1, digitRep 4, cmBoundary]

/-- Weekday names. -/
def weekdayNames : List String :=
  ["monday", "tuesday", "wednesday", "thursday", "friday", "saturday", "sunday"]

/-- Embeds the weekday + month + date pattern (IGNORECASE). -/
def protWeekdayPat : CM :=
  cmSeqs [cmBoundary,
    cmAlts (weekdayNames.map fun s => cmLitI s.toList),
    cmOpt (cmChar (· = ',')), ws1,
    cmAlts ((monthNamesLong ++ monthAbbrevWithMay).map fun s => cmLitI s.toList),
    optDot, ws1, digit12]

/-- Regex `[-.\s]`. -/
def phoneSep : CM := cmChar (fun c => c = '-' || c = '.' || reSpace c)

/-- Embeds `\b\d{3}[-.\s]\d{3}[-.\s]\d{4}\b`. -/
def protPhoneDashPat : CM :=
  cmSeqs [cmBoundary, digitRep 3, phoneSep, digitRep 3, phoneSep, digitRep 4,
    cmBoundary]

/-- Embeds `\(\d{3}\)\s*\d{3}[-.\s]\d{4}`. -/
def protPhoneParenPat : CM :=
  cmSeqs [cmChar (· = '('), digitRep 3, cmChar (· = ')'), wsS, digitRep 3,
    phoneSep, digitRep 4]

/-- Embeds the `_PROTECTED_PATTERNS` list. -/
def protectedPatterns : List CM :=
  [protCasePat, protAddressPat, protDateSlashPat, protDateIsoPat,
   protDateLongPat, protWeekdayPat, protPhoneDashPat, protPhoneParenPat]

/-- Embeds `_is_protected_line`: the line contains a protected identifier
(date, address, CAD#, phone). -/
def isProtectedLine (line : Str) : Bool :=
  protectedPatterns.any fun p => cmSearch p line

/-! Embeds the quality score signal regexes. -/

/-- Embeds `_DATE_QUALITY_RE` (IGNORECASE). -/
def dateQualityPat : CM :=
  cmSeqs [cmBoundary,
    cmAlts [cmSeqs [digit12, cmChar (· = '/'), digit12, cmChar (· = '/'), digitRep 4],
      cmSeqs [digitRep 4, cmChar (· = '-'), digitRep 2, cmChar (· = '-'), digitRep 2],
      cmSeqs [cmAlts (monthAbbrevWithMay.map fun s => cmLitI s.toList),
        cmManyG Char.isAlpha, optDot, ws1, digit12, cmChar (· = ','), ws1,
        digitRep 4]],
    cmBoundary]

/-- Embeds `_CAD_QUALITY_RE`:
`\b(CAD|DR|case|report\s+no\.?|incident)[#:\s]+[\w-]+` (IGNORECASE). -/
def cadQualityPat : CM :=
  cmSeqs [cmBoundary,
    cmAlts [cmLitI ("cad".toList), cmLitI ("dr".toList), cmLitI ("case".toList),
      cmSeqs [cmLitI ("report".toList), ws1, cmLitI ("no".toList), optDot],
      cmLitI ("incident".toList)],
    cmMany1G (fun c => c = '#' || c = ':' || reSpace c),
    cmMany1G (fun c => isWordChar c || c = '-')]

/-- Embeds `_ADDRESS_QUALITY_RE`: the street-address pattern with a leading
`\b`. -/
def addressQualityPat : CM := cmSeqs [cmBoundary, protAddressPat]

/-!
Embeds `BOILERPLATE_PATTERNS` from `clean_document.py`.  Each compiled
pattern becomes a `BPat`; `anchored` records whether the pattern source
starts with `^` (the dispatch used by `_remove_boilerplate`).
-/

/-- A compiled boilerplate pattern: `anchored` mirrors
`pattern.pattern.startswith("^")`. -/
structure BPat where
  anchored : Bool
  pat : CM

/-- Embeds `\bShare\b.*?\bPrint\b.*?\bEmail\b` (IGNORECASE). -/
def civicSharePrintEmailPat : CM :=
  cmSeqs [cmBoundary, cmLitI ("share".toList), cmBoundary,
    cmLazyStar (· ≠ '\n'), cmBoundary, cmLitI ("print".toList), cmBoundary,
    cmLazyStar (· ≠ '\n'), cmBoundary, cmLitI ("email".toList), cmBoundary]

/-- Embeds `\b(Share|Print|Email)\s+(this\s+)?(page|article|post)\b`
(IGNORECASE). -/
def civicShareThisPagePat : CM :=
  cmSeqs [cmBoundary,
    cmAlts [cmLitI ("share".toList), cmLitI ("print".toList), cmLitI ("email".toList)],
    ws1, cmOpt (cmSeqs [cmLitI ("this".toList), ws1]),
    cmAlts [cmLitI ("page".toList), cmLitI ("article".toList), cmLitI ("post".toList)],
    cmBoundary]

/-- Embeds `^\s*(Home|Residents|Government|Services|Departments)\s*[/|>]\s*`
(IGNORECASE, MULTILINE). -/
def civicBreadcrumbPat : CM :=
  cmSeqs [wsS,
    cmAlts (["home", "residents", "government", "services", "departments"].map
      fun s => cmLitI s.toList),
    wsS, cmChar (fun c => c = '/' || c = '|' || c = '>'), wsS]

/-- Embeds `\bHome\s*[/|>]\s*(Residents|Government|Services|Departments)\b`
(IGNORECASE). -/
def civicHomeSlashPat : CM :=
  cmSeqs [cmBoundary, cmLitI ("home".toList), wsS,
    cmChar (fun c => c = '/' || c = '|' || c = '>'), wsS,
    cmAlts (["residents", "government", "services", "departments"].map
      fun s => cmLitI s.toList),
    cmBoundary]

/-- Embeds `sign\s+up\s+for\s+(news|alerts?|notifications?|updates?)`
(IGNORECASE). -/
def civicSignUpPat : CM :=
  cmSeqs [cmWordsI ["sign", "up", "for"], ws1,
    cmAlts [cmLitI ("news".toList), cmLitIOptS "alert",
      cmLitIOptS "notification", cmLitIOptS "update"]]

/-- Embeds `subscribe\s+to\s+(news|alerts?|notifications?|email\s+updates?)`
(IGNORECASE). -/
def civicSubscribePat : CM :=
  cmSeqs [cmWordsI ["subscribe", "to"], ws1,
    cmAlts [cmLitI ("news".toList), cmLitIOptS "alert",
      cmLitIOptS "notification",
      cmSeqs [cmLitI ("email".toList), ws1, cmLitIOptS "update"]]]

/-- Embeds `(this\s+site\s+uses?\s+cookies?|we\s+use\s+cookies?)[^.]*\.`
(IGNORECASE).  The same pattern text occurs in both the civicplus and the
default rule-sets. -/
def cookieSentencePat : CM :=
  cmSeqs [cmAlts [
      cmSeqs [cmWordsI ["this", "site"], ws1, cmLitIOptS "use", ws1,
        cmLitIOptS "cookie"],
      cmSeqs [cmWordsI ["we", "use"], ws1, cmLitIOptS "cookie"]],
    cmManyG (· ≠ '.'), cmChar (· = '.')]

/-- Embeds `(accept\s+all\s+cookies?|cookie\s+policy|cookie\s+settings?)`
(IGNORECASE). -/
def civicCookieButtonPat : CM :=
  cmAlts [cmSeqs [cmWordsI ["accept", "all"], ws1, cmLitIOptS "cookie"],
    cmSeqs [cmLitI ("cookie".toList), ws1, cmLitI ("policy".toList)],
    cmSeqs [cmLitI ("cookie".toList), ws1, cmLitIOptS "setting"]]

/-- Embeds `powered\s+by\s+civicplus` (IGNORECASE). -/
def civicPoweredByPat : CM := cmWordsI ["powered", "by", "civicplus"]

/-- Embeds `civicplus\s+(cms|platform|technology)` (IGNORECASE). -/
def civicPlatformPat : CM :=
  cmSeqs [cmLitI ("civicplus".toList), ws1,
    cmAlts [cmLitI ("cms".toList), cmLitI ("platform".toList),
      cmLitI ("technology".toList)]]

/-- The `"civicplus"` boilerplate rule-set. -/
def civicplusPatterns : List BPat :=
  [⟨false, civicSharePrintEmailPat⟩, ⟨false, civicShareThisPagePat⟩,
   ⟨true, civicBreadcrumbPat⟩, ⟨false, civicHomeSlashPat⟩,
   ⟨false, civicSignUpPat⟩, ⟨false, civicSubscribePat⟩,
   ⟨false, cookieSentencePat⟩, ⟨false, civicCookieButtonPat⟩,
   ⟨false, civicPoweredByPat⟩, ⟨false, civicPlatformPat⟩]

/-- Embeds `powered\s+by\s+crime\s*mapping` (IGNORECASE). -/
def crimePoweredByPat : CM :=
  cmSeqs [cmWordsI ["powered", "by"], ws1, cmLitI ("crime".toList), wsS,
    cmLitI ("mapping".toList)]

/-- Embeds `\bview\s+map\b` (IGNORECASE). -/
def crimeViewMapPat : CM :=
  cmSeqs [cmBoundary, cmLitI ("view".toList), ws1, cmLitI ("map".toList),
    cmBoundary]

/-- Embeds `\b(download|export)\s+(report|data|csv|pdf)\b` (IGNORECASE). -/
def crimeDownloadPat : CM :=
  cmSeqs [cmBoundary,
    cmAlts [cmLitI ("download".toList), cmLitI ("export".toList)], ws1,
    cmAlts [cmLitI ("report".toList), cmLitI ("data".toList),
      cmLitI ("csv".toList), cmLitI ("pdf".toList)],
    cmBoundary]

/-- Embeds `\bfilter\s+(by|results?|incidents?)\b` (IGNORECASE). -/
def crimeFilterPat : CM :=
  cmSeqs [cmBoundary, cmLitI ("filter".toList), ws1,
    cmAlts [cmLitI ("by".toList), cmLitIOptS "result", cmLitIOptS "incident"],
    cmBoundary]

/-- Embeds `^\s*(Category|Type|Status|Zone|Beat|District|Address):\s*$`
(IGNORECASE, MULTILINE). -/
def crimeBareLabelPat : CM :=
  cmSeqs [wsS,
    cmAlts (["category", "type", "status", "zone", "beat", "district",
      "address"].map fun s => cmLitI s.toList),
    cmChar (· = ':'), wsS, cmEnd]

/-- Embeds `^\s*(Show|Hide)\s+(all|filters?|map|legend)\s*$`
(IGNORECASE, MULTILINE). -/
def crimeShowHidePat : CM :=
  cmSeqs [wsS, cmAlts [cmLitI ("show".toList), cmLitI ("hide".toList)], ws1,
    cmAlts [cmLitI ("all".toList), cmLitIOptS "filter", cmLitI ("map".toList),
      cmLitI ("legend".toList)],
    wsS, cmEnd]

/-- The `"crimemapping"` boilerplate rule-set. -/
def crimemappingPatterns : List BPat :=
  [⟨false, crimePoweredByPat⟩, ⟨false, crimeViewMapPat⟩,
   ⟨false, crimeDownloadPat⟩, ⟨false, crimeFilterPat⟩,
   ⟨true, crimeBareLabelPat⟩, ⟨true, crimeShowHidePat⟩]

/-- Embeds `sent\s+via\s+(nixle|rave)` (IGNORECASE). -/
def nixleSentViaPat : CM :=
  cmSeqs [cmWordsI ["sent", "via"], ws1,
    cmAlts [cmLitI ("nixle".toList), cmLitI ("rave".toList)]]

/-- Embeds `to\s+manage\s+your\s+notifications?` (IGNORECASE). -/
def nixleManagePat : CM :=
  cmSeqs [cmWordsI ["to", "manage", "your"], ws1, cmLitIOptS "notification"]

/-- Embeds `\bunsubscribe\b[^.]*` (IGNORECASE). -/
def nixleUnsubscribePat : CM :=
  cmSeqs [cmBoundary, cmLitI ("unsubscribe".toList), cmBoundary,
    cmManyG (· ≠ '.')]

/-- Embeds `(standard\s+)?((sms|message|data)\s+rates?\s+(may\s+)?apply)`
(IGNORECASE). -/
def nixleRatesPat : CM :=
  cmSeqs [cmOpt (cmSeqs [cmLitI ("standard".toList), ws1]),
    cmAlts [cmLitI ("sms".toList), cmLitI ("message".toList),
      cmLitI ("data".toList)],
    ws1, cmLitIOptS "rate", ws1,
    cmOpt (cmSeqs [cmLitI ("may".toList), ws1]), cmLitI ("apply".toList)]

/-- Embeds `reply\s+stop\s+to\s+(opt.?out|unsubscribe|cancel)`
(IGNORECASE). -/
def nixleReplyStopPat : CM :=
  cmSeqs [cmWordsI ["reply", "stop", "to"], ws1,
    cmAlts [cmSeqs [cmLitI ("opt".toList), cmOpt (cmChar (· ≠ '\n')),
        cmLitI ("out".toList)],
      cmLitI ("unsubscribe".toList), cmLitI ("cancel".toList)]]

/-- Embeds `reply\s+(stop|help|info)\b[^.]*` (IGNORECASE). -/
def nixleReplyKeywordPat : CM :=
  cmSeqs [cmLitI ("reply".toList), ws1,
    cmAlts [cmLitI ("stop".toList), cmLitI ("help".toList),
      cmLitI ("info".toList)],
    cmBoundary, cmManyG (· ≠ '.')]

/-- Embeds `you\s+(are\s+)?receiving\s+this\s+(message|alert|notification)`
(IGNORECASE). -/
def nixleReceivingPat : CM :=
  cmSeqs [cmLitI ("you".toList), ws1,
    cmOpt (cmSeqs [cmLitI ("are".toList), ws1]),
    cmLitI ("receiving".toList), ws1, cmLitI ("this".toList), ws1,
    cmAlts [cmLitI ("message".toList), cmLitI ("alert".toList),
      cmLitI ("notification".toList)]]

/-- The `"nixle"` boilerplate rule-set (also used, via aliasing, for
`"rave"`). -/
def nixlePatterns : List BPat :=
  [⟨false, nixleSentViaPat⟩, ⟨false, nixleManagePat⟩,
   ⟨false, nixleUnsubscribePat⟩, ⟨false, nixleRatesPat⟩,
   ⟨false, nixleReplyStopPat⟩, ⟨false, nixleReplyKeywordPat⟩,
   ⟨false, nixleReceivingPat⟩]

/-- Character class `[A-Z\s]`. -/
def capOrSpace (c : Char) : Bool := c.isUpper || reSpace c

/-- Embeds `^\s*CONFIDENTIAL\s*$` (MULTILINE, case sensitive). -/
def pdfConfidentialPat : CM :=
  cmSeqs [wsS, cmLit ("CONFIDENTIAL".toList), wsS, cmEnd]

/-- Embeds `^\s*FOR\s+OFFICIAL\s+USE\s+ONLY\s*$` (MULTILINE). -/
def pdfFouoPat : CM :=
  cmSeqs [wsS, cmLit ("FOR".toList), ws1, cmLit ("OFFICIAL".toList), ws1,
    cmLit ("USE".toList), ws1, cmLit ("ONLY".toList), wsS, cmEnd]

/-- Embeds `^\s*LAW\s+ENFORCEMENT\s+SENSITIVE\s*$` (MULTILINE). -/
def pdfLesPat : CM :=
  cmSeqs [wsS, cmLit ("LAW".toList), ws1, cmLit ("ENFORCEMENT".toList), ws1,
    cmLit ("SENSITIVE".toList), wsS, cmEnd]

/-- Embeds `^\s*THIS\s+PAGE\s+(INTENTIONALLY\s+)?LEFT\s+BLANK\s*$`
(MULTILINE). -/
def pdfBlankPagePat : CM :=
  cmSeqs [wsS, cmLit ("THIS".toList), ws1, cmLit ("PAGE".toList), ws1,
    cmOpt (cmSeqs [cmLit ("INTENTIONALLY".toList), ws1]),
    cmLit ("LEFT".toList), ws1, cmLit ("BLANK".toList), wsS, cmEnd]

/-- Embeds `^\s*[A-Z\s]{10,}\s+(?:POLICE|SHERIFF|DEPARTMENT|DEPT\.?)\s*$`
(MULTILINE): bare department letterhead. -/
def pdfLetterheadPat : CM :=
  cmSeqs [wsS, cmRep (cmChar capOrSpace) 10, cmManyG capOrSpace, ws1,
    cmAlts [cmLit ("POLICE".toList), cmLit ("SHERIFF".toList),
      cmLit ("DEPARTMENT".toList),
      cmSeqs [cmLit ("DEPT".toList), optDot]],
    wsS, cmEnd]

/-- The `"pdf"` boilerplate rule-set. -/
def pdfPatterns : List BPat :=
  [⟨true, pdfConfidentialPat⟩, ⟨true, pdfFouoPat⟩, ⟨true, pdfLesPat⟩,
   ⟨true, pdfBlankPagePat⟩, ⟨true, pdfLetterheadPat⟩]

/-- Embeds `(accept\s+all\s+cookies?|cookie\s+policy)` (IGNORECASE). -/
def defaultCookieButtonPat : CM :=
  cmAlts [cmSeqs [cmWordsI ["accept", "all"], ws1, cmLitIOptS "cookie"],
    cmSeqs [cmLitI ("cookie".toList), ws1, cmLitI ("policy".toList)]]

/-- Embeds `^\s*(Home|About|Contact|Search|Menu|Navigation|Accessibility)\s*$`
(IGNORECASE, MULTILINE). -/
def defaultNavWordPat : CM :=
  cmSeqs [wsS,
    cmAlts (["home", "about", "contact", "search", "menu", "navigation",
      "accessibility"].map fun s => cmLitI s.toList),
    wsS, cmEnd]

/-- Embeds `follow\s+us\s+on\s+(facebook|twitter|instagram|x|youtube|linkedin)`
(IGNORECASE). -/
def defaultFollowUsPat : CM :=
  cmSeqs [cmWordsI ["follow", "us", "on"], ws1,
    cmAlts (["facebook", "twitter", "instagram", "x", "youtube",
      "linkedin"].map fun s => cmLitI s.toList)]

/-- Embeds `like\s+us\s+on\s+facebook` (IGNORECASE). -/
def defaultLikeUsPat : CM := cmWordsI ["like", "us", "on", "facebook"]

/-- Embeds `©\s*\d{4}[^.\n]*` (IGNORECASE). -/
def defaultCopyrightSymbolPat : CM :=
  cmSeqs [cmChar (· = '©'), wsS, digitRep 4,
    cmManyG (fun c => !(c = '.' || c = '\n'))]

/-- Embeds `copyright\s+\d{4}[^.\n]*` (IGNORECASE). -/
def defaultCopyrightWordPat : CM :=
  cmSeqs [cmLitI ("copyright".toList), ws1, digitRep 4,
    cmManyG (fun c => !(c = '.' || c = '\n'))]

/-- Embeds `^\s*back\s+to\s+top\s*$` (IGNORECASE, MULTILINE). -/
def defaultBackToTopPat : CM :=
  cmSeqs [wsS, cmWordsI ["back", "to", "top"], wsS, cmEnd]

/-- The `"default"` boilerplate rule-set. -/
def defaultPatterns : List BPat :=
  [⟨false, cookieSentencePat⟩, ⟨false, defaultCookieButtonPat⟩,
   ⟨true, defaultNavWordPat⟩, ⟨false, defaultFollowUsPat⟩,
   ⟨false, defaultLikeUsPat⟩, ⟨false, defaultCopyrightSymbolPat⟩,
   ⟨false, defaultCopyrightWordPat⟩, ⟨true, defaultBackToTopPat⟩]

/-- Embeds the `BOILERPLATE_PATTERNS` dict (with `"rave"` aliased to the
`"nixle"` list, as in the source). -/
def boilerplatePatternsFor (pt : Str) : Option (List BPat) :=
  if pt = ("civicplus".toList) then some civicplusPatterns
  else if pt = ("crimemapping".toList) then some crimemappingPatterns
  else if pt = ("nixle".toList) then some nixlePatterns
  else if pt = ("pdf".toList) then some pdfPatterns
  else if pt = ("default".toList) then some defaultPatterns
  else if pt = ("rave".toList) then some nixlePatterns
  else none

/-!
The cleaning pipeline of `clean_document.py`.
-/

/-- Fuel-indexed worker for `pdfHyphenJoin`. -/
def pdfHyphenJoinAux : Nat → Str → Str
  | 0, l => l
  | _, [] => []
  | fuel + 1, a :: '-' :: '\n' :: b :: rest =>
    if isWordChar a && isWordChar b then a :: b :: pdfHyphenJoinAux fuel rest
    else a :: pdfHyphenJoinAux fuel ('-' :: '\n' :: b :: rest)
  | fuel + 1, c :: rest => c :: pdfHyphenJoinAux fuel rest

/-- Embeds `_PDF_HYPHEN_RE.sub(r"\1\2", text)`: join hyphenated line-breaks
(`word-\nword` becomes `wordword`); scanning resumes after each match, as
in `re.sub`. -/
def pdfHyphenJoin (l : Str) : Str := pdfHyphenJoinAux l.length l

/-- Embeds the per-line pattern loop of `_remove_boilerplate`: a matching
line-anchored pattern blanks the whole line and stops; other patterns
replace their matches by a space and the loop continues. -/
def applyBoilerplate : List BPat → Str → Str
  | [], line => line
  | p :: ps, line =>
    if p.anchored then
      if cmMatchAtStart p.pat line then [] else applyBoilerplate ps line
    else applyBoilerplate ps (cmSubstAll p.pat none line)

/-- Embeds the body of the line loop of `_remove_boilerplate`: protected
lines are kept verbatim, all others run through the pattern loop. -/
def processBoilerplateLine (pats : List BPat) (line : Str) : Str :=
  if isProtectedLine line then line else applyBoilerplate pats line

/-- Embeds `pt = platform_type.lower() if platform_type else "default"`. -/
def effectivePlatform (platformType : Str) : Str :=
  if platformType = [] then ("default".toList) else lowerStr platformType

/-- The text entering the line loop of `_remove_boilerplate`: PDF text has
hyphenated line-breaks joined first. -/
def pdfAdjustedInput (text platformType : Str) : Str :=
  if effectivePlatform platformType = ("pdf".toList) then pdfHyphenJoin text
  else text

/-- Embeds `_remove_boilerplate`. -/
def removeBoilerplate (text platformType : Str) : Str :=
  let pats :=
    (boilerplatePatternsFor (effectivePlatform platformType)).getD defaultPatterns
  joinLines
    ((splitLines (pdfAdjustedInput text platformType)).map
      (processBoilerplateLine pats))

/-- Sentence-ending punctuation of the split pattern of
`_deduplicate_sentences`. -/
def optPunct : Option Char → Bool
  | none => false
  | some c => c = '.' || c = '!' || c = '?'

/-- Whether a string starts with an (ASCII) uppercase letter. -/
def headIsUpper : Str → Bool
  | [] => false
  | d :: _ => d.isUpper

/-- Whether a string starts with a newline. -/
def headIsNewline : Str → Bool
  | [] => false
  | d :: _ => d = '\n'

/-- Fuel-indexed worker for `segSplit`. -/
def segSplitAux : Nat → Option Char → Str → List Str
  | 0, _, l => [l]
  | _, _, [] => [[]]
  | fuel + 1, pv, c :: r =>
    if optPunct pv && reSpace c && headIsUpper (r.dropWhile reSpace) then
      [] :: segSplitAux fuel (some ' ') (r.dropWhile reSpace)
    else if c = '\n' && headIsNewline r then
      [] :: segSplitAux fuel (some '\n') (r.dropWhile (· = '\n'))
    else
      match segSplitAux fuel (some c) r with
      | [] => [[c]]
      | h :: t => (c :: h) :: t

/-- Models `re.split(r"(?<=[.!?])\s+(?=[A-Z])|\n{2,}", text)`: both
separator branches consume a maximal whitespace (resp. newline) run; the
lookbehind/lookahead characters are kept. -/
def segSplit (pv : Option Char) (l : Str) : List Str :=
  segSplitAux l.length pv l

/-- Length of the common prefix of two strings. -/
def commonPrefixLen : Str → Str → Nat
  | a :: as, b :: bs => if a = b then commonPrefixLen as bs + 1 else 0
  | _, _ => 0

/-- Models `difflib` `find_longest_match` over whole strings (no junk
heuristic): the longest common block, ties broken by the earliest start in
the first string, then in the second. -/
def longestMatchBlock (a b : Str) : Nat × Nat × Nat :=
  ((List.range (a.length + 1)).flatMap fun i =>
      (List.range (b.length + 1)).map fun j =>
        (i, j, commonPrefixLen (a.drop i) (b.drop j))).foldl
    (fun best c => if best.2.2 < c.2.2 then c else best) (0, 0, 0)

/-- Total size of the matching blocks (the recursive block decomposition of
`difflib.SequenceMatcher.get_matching_blocks`), with a structural fuel
argument. -/
def matchTotalAux : Nat → Str → Str → Nat
  | 0, _, _ => 0
  | fuel + 1, a, b =>
    let ijk := longestMatchBlock a b
    if ijk.2.2 = 0 then 0
    else
      ijk.2.2 + matchTotalAux fuel (a.take ijk.1) (b.take ijk.2.1) +
        matchTotalAux fuel (a.drop (ijk.1 + ijk.2.2)) (b.drop (ijk.2.1 + ijk.2.2))

/-- Total matching-block size with the fuel instantiated (the fuel bounds
the recursion depth, which never exceeds the combined length). -/
def matchTotal (a b : Str) : Nat := matchTotalAux (a.length + b.length + 1) a b

/-- Models `difflib.SequenceMatcher(None, a, b).ratio()` (external library):
`2 * M / (len(a) + len(b))` where `M` is the total matching-block size; `1`
for two empty strings.  The autojunk popularity heuristic (only active for
strings of length at least 200) is not modelled. -/
def similarity (a b : Str) : ℚ :=
  if a.length + b.length = 0 then 1
  else (2 * (matchTotal a b : ℚ)) / ((a.length : ℚ) + (b.length : ℚ))

/-- Embeds `_DEDUP_THRESHOLD = 0.85`. -/
def dedupThreshold : ℚ := mkRat 85 100

/-- Embeds the keep-first loop of `_deduplicate_sentences`. -/
def dedupLoop (seen : List Str) : List Str → List Str
  | [] => seen
  | seg :: rest =>
    let stripped := pyStrip seg
    if stripped = [] then dedupLoop seen rest
    else if seen.any (fun prior =>
        dedupThreshold ≤ similarity (lowerStr stripped) (lowerStr prior)) then
      dedupLoop seen rest
    else dedupLoop (seen ++ [stripped]) rest

/-- Python `"\n\n".join(xs)`. -/
def joinBlank : List Str → Str
  | [] => []
  | [x] => x
  | x :: xs => x ++ '\n' :: '\n' :: joinBlank xs

/-- Embeds `_deduplicate_sentences`. -/
def dedupSentences (text : Str) : Str :=
  joinBlank (dedupLoop [] (segSplit none text))

/-- Named character references decoded by the `html.unescape` model. -/
def namedEntities : List (String × Char) :=
  [("amp", '&'), ("lt", '<'), ("gt", '>'), ("quot", '"'), ("apos", '\''),
   ("nbsp", Char.ofNat 0xa0), ("shy", Char.ofNat 0xad)]

/-- Look up a named character reference. -/
def lookupEntity (name : Str) : Option Char :=
  (namedEntities.find? fun e => e.1.toList = name).map (·.2)

/-- Digits of a numeric character reference to a number. -/
def decDigitsToNat (l : Str) : Nat :=
  l.foldl (fun acc c => acc * 10 + (c.toNat - 48)) 0

/-- Models the standard-library `html.unescape` (external): decodes the
common named references and decimal numeric references; anything else is
left as written.  Exact on text without `&`. -/
def unescapeHtmlAux : Nat → Str → Str
  | 0, l => l
  | _, [] => []
  | fuel + 1, '&' :: r =>
    let name := r.takeWhile fun c => c ≠ ';' && c ≠ '&' && !reSpace c
    match r.drop name.length with
    | ';' :: rest =>
      match lookupEntity name with
      | some ch => ch :: unescapeHtmlAux fuel rest
      | none =>
        match name with
        | '#' :: ds =>
          if ds ≠ [] && ds.all Char.isDigit && decDigitsToNat ds < 0xd800 then
            Char.ofNat (decDigitsToNat ds) :: unescapeHtmlAux fuel rest
          else '&' :: unescapeHtmlAux fuel r
        | _ => '&' :: unescapeHtmlAux fuel r
    | _ => '&' :: unescapeHtmlAux fuel r
  | fuel + 1, c :: r => c :: unescapeHtmlAux fuel r

/-- Entry point of the `html.unescape` model. -/
def unescapeHtml (l : Str) : Str := unescapeHtmlAux l.length l

/-- Embeds `_PDF_PAGE_RE` (`^\s*[Pp]age\s+\d+\s+of\s+\d+\s*$`, MULTILINE),
matched against a single line. -/
def pdfPageLinePat : CM :=
  cmSeqs [wsS, cmChar (fun c => c = 'P' || c = 'p'), cmLit ("age".toList),
    ws1, digits1, ws1, cmLit ("of".toList), ws1, digits1, wsS, cmEnd]

/-- Whether a line is a pagination artifact per `_PDF_PAGE_RE`. -/
def lineIsPdfPage (line : Str) : Bool := cmMatchAtStart pdfPageLinePat line

/-- Models `_PDF_PAGE_RE.sub("", text)` line-wise: matching lines are
emptied.  (In Python a match's `\s` runs may also absorb neighbouring blank
lines; the difference is confined to blank-line run lengths, which the
whitespace-normalization stage collapses.) -/
def pdfPageSub (text : Str) : Str :=
  joinLines ((splitLines text).map fun l => if lineIsPdfPage l then [] else l)

/-- Models `unicodedata.category(ch).startswith("C")` (external Unicode
database): control, format, surrogate and private-use classes; exact for
ASCII/Latin-1 and for the format characters of interest. -/
def isCategoryC (c : Char) : Bool :=
  c.val < 32 || (127 ≤ c.val && c.val ≤ 159) || c.val = 0xad ||
  c.val = 0x61c || (0x200b ≤ c.val && c.val ≤ 0x200f) ||
  (0x202a ≤ c.val && c.val ≤ 0x202e) || (0x2060 ≤ c.val && c.val ≤ 0x2064) ||
  (0x2066 ≤ c.val && c.val ≤ 0x206f) || c.val = 0xfeff ||
  (0xe000 ≤ c.val && c.val ≤ 0xf8ff) || 0xf0000 ≤ c.val

/-- Embeds `_remove_nonprintable`: drop category-C characters, keeping
newline and tab. -/
def removeNonPrintable (text : Str) : Str :=
  text.filter fun c => c = '\n' || c = '\t' || !isCategoryC c

/-- Fuel-indexed worker for `collapseSpaceTab`. -/
def collapseSpaceTabAux : Nat → Str → Str
  | 0, l => l
  | _, [] => []
  | fuel + 1, c :: r =>
    if c = ' ' || c = '\t' then
      ' ' :: collapseSpaceTabAux fuel (r.dropWhile fun d => d = ' ' || d = '\t')
    else c :: collapseSpaceTabAux fuel r

/-- Models `re.sub(r"[ \t]+", " ", line)`. -/
def collapseSpaceTab (l : Str) : Str := collapseSpaceTabAux l.length l

/-- Fuel-indexed worker for `collapseBlankRuns`. -/
def collapseBlankRunsAux : Nat → Str → Str
  | 0, l => l
  | _, [] => []
  | fuel + 1, c :: r =>
    if c = '\n' then
      List.replicate (min (1 + (r.takeWhile (· = '\n')).length) 2) '\n' ++
        collapseBlankRunsAux fuel (r.dropWhile (· = '\n'))
    else c :: collapseBlankRunsAux fuel r

/-- Models `re.sub(r"\n{3,}", "\n\n", text)`: collapse runs of three or more
newlines down to two. -/
def collapseBlankRuns (l : Str) : Str := collapseBlankRunsAux l.length l

/-- Embeds `_normalize_whitespace`. -/
def normalizeWhitespace (text : Str) : Str :=
  let normalized := (splitLines text).map fun line => pyStrip (collapseSpaceTab line)
  pyStrip (collapseBlankRuns (joinLines normalized))

/-- Embeds `_compute_quality_score`.  Python computes
`int(removal_pct * 80)` on a float; this is modelled by the exact
truncation toward zero of the rational `80 * (len(original) − len(cleaned))
/ len(original)`, i.e. by `Int.div` (T-division) with the positive
denominator `len(original)`. -/
def computeQualityScore (original cleaned : Str) : ℤ :=
  if original = [] then 0
  else
    let removalScaled : ℤ :=
      Int.tdiv (80 * ((original.length : ℤ) - (cleaned.length : ℤ)))
        (original.length : ℤ)
    let base : ℤ := max 0 (100 - removalScaled)
    let bonus : ℤ :=
      (if cmSearch dateQualityPat cleaned then 10 else 0) +
      (if cmSearch cadQualityPat cleaned then 10 else 0) +
      (if cmSearch addressQualityPat cleaned then 5 else 0)
    let score := min 100 (base + bonus)
    if (pyStrip cleaned).length < 50 then min score 30 else score

/-- HTML block-level tags around which `_strip_html` inserts paragraph
breaks. -/
def blockTags : List String :=
  ["p", "div", "li", "h1", "h2", "h3", "h4", "h5", "h6"]

/-- Replacement text for one tag in the simplified tag stripper. -/
def tagRepl (inner : Str) : Str :=
  let name := lowerStr ((inner.dropWhile (· = '/')).takeWhile Char.isAlphanum)
  if name = ("br".toList) then ['\n']
  else if (blockTags.map (·.toList)).contains name then ['\n', '\n']
  else []

/-- Simplified tag stripper used by the `_strip_html` model on marked-up
input. -/
def stripTagsAux : Nat → Str → Str
  | 0, l => l
  | _, [] => []
  | fuel + 1, '<' :: r =>
    tagRepl (r.takeWhile (· ≠ '>')) ++
      stripTagsAux fuel ((r.dropWhile (· ≠ '>')).drop 1)
  | fuel + 1, c :: r => c :: stripTagsAux fuel r

/-- Models the BeautifulSoup-based `_strip_html` (external library).  On
markup-free input (no tag opener and no entity) `get_text` is the identity;
otherwise a simplified stripper stands in for the library: tags are removed,
`<br>` becomes a newline and block tags become paragraph breaks. -/
def stripHtml (text : Str) : Str :=
  if text.contains '<' || text.contains '&' then stripTagsAux text.length text
  else text

/-- Embeds the `CleaningResult` dataclass. -/
structure CleaningResult where
  cleaned_text : Str
  quality_score : ℤ
deriving DecidableEq

/-- Embeds `clean_document`: the seven-stage pipeline followed by quality
scoring against the original raw text. -/
def cleanDocument (rawText : Str) (platformType : Str) : CleaningResult :=
  if rawText = [] ∨ pyStrip rawText = [] then ⟨[], 0⟩
  else
    let ta := stripHtml rawText
    let tb := removeBoilerplate ta platformType
    let tc := dedupSentences tb
    let td := unescapeHtml tc
    let te := pdfPageSub td
    let tf := removeNonPrintable te
    let tg := normalizeWhitespace tf
    ⟨tg, computeQualityScore rawText tg⟩

/-!
The classifier of `classify_document.py`.
-/

/-- Embeds the `RawDocument` dataclass of `parsers/base.py` (the
`published_date` timestamp is modelled by an optional integer and
`source_metadata` by an association list; neither is consulted by the
classifier or the dedup gate). -/
structure RawDocument where
  url : Str
  agency_id : Str
  document_type : Str
  title : Option Str
  raw_text : Str
  published_date : Option Int := none
  source_metadata : List (Str × Str) := []
deriving DecidableEq

/-- Embeds the `ClassificationResult` dataclass. -/
structure ClassificationResult where
  document_type : Str
  confidence : ℚ
deriving DecidableEq

/-- Embeds `LEGACY_NORMALIZATION`. -/
def legacyNormalization : List (Str × Str) :=
  [("activity_feed".toList, "daily_activity_log".toList),
   ("alert".toList, "community_alert".toList),
   ("incident_log".toList, "incident_report".toList),
   ("incident_reports".toList, "incident_report".toList),
   ("open_data_api".toList, "open_data_record".toList),
   ("pdf_library".toList, "pdf_document".toList)]

/-- Embeds `VALID_TYPES`. -/
def validTypes : List Str :=
  [("press_release".toList), ("arrest_log".toList),
   ("daily_activity_log".toList), ("community_alert".toList),
   ("incident_report".toList), ("crimemapping_incident".toList),
   ("open_data_record".toList), ("pdf_document".toList),
   ("rss_item".toList)]

/-- Association-list lookup, modelling `dict.get` / `dict[key]`. -/
def lookupAssoc {α : Type} (table : List (Str × α)) (key : Str) : Option α :=
  (table.find? fun e => e.1 = key).map (·.2)

/-- Embeds `PLATFORM_TYPE_DEFAULTS` in dict insertion order. -/
def platformTypeDefaults : List (Str × Str × ℚ) :=
  [("crimemapping".toList, "crimemapping_incident".toList, 1),
   ("citizenrims".toList, "incident_report".toList, mkRat 9 10),
   ("nixle".toList, "community_alert".toList, mkRat 9 10),
   ("rave".toList, "community_alert".toList, mkRat 9 10),
   ("socrata".toList, "open_data_record".toList, mkRat 85 100),
   ("arcgis".toList, "open_data_record".toList, mkRat 85 100),
   ("pdf".toList, "pdf_document".toList, mkRat 75 100),
   ("civicplus".toList, "press_release".toList, mkRat 7 10),
   ("rss".toList, "rss_item".toList, mkRat 7 10)]

/-- Embeds `/press.?release|/news/|/media-release`. -/
def urlPressPat : CM :=
  cmAlts [cmSeqs [cmLit ("/press".toList), cmOpt (cmChar (· ≠ '\n')),
      cmLit ("release".toList)],
    cmLit ("/news/".toList), cmLit ("/media-release".toList)]

/-- Embeds `/arrest|/booking|/jail|/inmate`. -/
def urlArrestPat : CM :=
  cmAlts [cmLit ("/arrest".toList), cmLit ("/booking".toList),
    cmLit ("/jail".toList), cmLit ("/inmate".toList)]

/-- Embeds `/activity.?log|/daily.?log|/blotter|/patrol-log`. -/
def urlActivityPat : CM :=
  cmAlts [cmSeqs [cmLit ("/activity".toList), cmOpt (cmChar (· ≠ '\n')),
      cmLit ("log".toList)],
    cmSeqs [cmLit ("/daily".toList), cmOpt (cmChar (· ≠ '\n')),
      cmLit ("log".toList)],
    cmLit ("/blotter".toList), cmLit ("/patrol-log".toList)]

/-- Embeds `/alert|/warn|/emergency|/bolo`. -/
def urlAlertPat : CM :=
  cmAlts [cmLit ("/alert".toList), cmLit ("/warn".toList),
    cmLit ("/emergency".toList), cmLit ("/bolo".toList)]

/-- Embeds `/incident|/crime.?report`. -/
def urlIncidentPat : CM :=
  cmAlts [cmLit ("/incident".toList),
    cmSeqs [cmLit ("/crime".toList), cmOpt (cmChar (· ≠ '\n')),
      cmLit ("report".toList)]]

/-- Embeds `_URL_PATTERNS` (ordered; first match wins). -/
def urlPatterns : List (CM × Str × ℚ) :=
  [(urlPressPat, "press_release".toList, mkRat 2 10),
   (urlArrestPat, "arrest_log".toList, mkRat 25 100),
   (urlActivityPat, "daily_activity_log".toList, mkRat 25 100),
   (urlAlertPat, "community_alert".toList, mkRat 2 10),
   (urlIncidentPat, "incident_report".toList, mkRat 2 10)]

/-- Embeds `_url_signal`: the first matching URL pattern over the lowercased
URL. -/
def urlSignal (url : Str) : Option (Str × ℚ) :=
  let lowered := lowerStr url
  urlPatterns.findSome? fun e =>
    if cmSearch e.1 lowered then some (e.2.1, e.2.2) else none

/-- Embeds `KEYWORD_SIGNALS` in dict insertion order. -/
def keywordSignals : List (Str × List Str) :=
  [("press_release".toList,
    [("press release".toList), ("for immediate release".toList),
     ("media contact".toList), ("public information officer".toList),
     ("pio".toList)]),
   ("arrest_log".toList,
    [("arrested".toList), ("booking".toList), ("bail".toList),
     ("arraignment".toList), ("charges filed".toList),
     ("booked into".toList), ("remanded".toList)]),
   ("daily_activity_log".toList,
    [("daily activity".toList), ("patrol log".toList),
     ("calls for service".toList), ("cad report".toList),
     ("shift summary".toList), ("service calls".toList)]),
   ("community_alert".toList,
    [("bolo".toList), ("be on the lookout".toList), ("wanted".toList),
     ("missing person".toList), ("amber alert".toList),
     ("silver alert".toList), ("shelter in place".toList),
     ("advisory".toList)]),
   ("incident_report".toList,
    [("case number".toList), ("report number".toList),
     ("occurred at".toList), ("victim reported".toList),
     ("suspect fled".toList), ("investigation ongoing".toList)])]

/-- Python `needle in haystack` for strings: substring containment. -/
def containsSub (hay needle : Str) : Bool :=
  hay.tails.any fun t => needle.isPrefixOf t

/-- Embeds the loop body of `_keyword_signal`: count the keywords of one
type present in the lowered excerpt; a non-zero count yields the boost
`min(matches * 0.1, 0.3)`, and a strictly better boost displaces the
current best (so the first type in table order wins ties). -/
def keywordStep (lowered : Str) (acc : Option Str × ℚ) (e : Str × List Str) :
    Option Str × ℚ :=
  let mcount := (e.2.filter fun kw => containsSub lowered kw).length
  if mcount ≠ 0 then
    let boost : ℚ := min ((mcount : ℚ) * mkRat 1 10) (mkRat 3 10)
    if acc.2 < boost then (some e.1, boost) else acc
  else acc

/-- Embeds `_keyword_signal`: fold the step over the keyword table in dict
insertion order; return the best type with its boost, or `none`. -/
def keywordSignal (text : Str) : Option (Str × ℚ) :=
  let lowered := lowerStr text
  let best := keywordSignals.foldl (keywordStep lowered) (none, 0)
  match best.1 with
  | none => none
  | some t => some (t, best.2)

/-- Embeds `_content_text`: title and the first 300 characters of the raw
text, joined by one space (the f-string `f"{title_part} {text_part}"`). -/
def contentText (doc : RawDocument) : Str :=
  (doc.title.getD []) ++ ' ' :: doc.raw_text.take 300

/-- The normalized document-type hint
(`LEGACY_NORMALIZATION.get(doc.document_type, doc.document_type)`). -/
def normalizedHint (doc : RawDocument) : Str :=
  (lookupAssoc legacyNormalization doc.document_type).getD doc.document_type

/-- Whether the normalized hint is a canonical type (`legacy_hit`). -/
def legacyHit (doc : RawDocument) : Bool :=
  validTypes.contains (normalizedHint doc)

/-- Embeds `_FALLBACK`. -/
def fallbackResult : ClassificationResult := ⟨"press_release".toList, mkRat 4 10⟩

/-- Embeds steps 3–5 of `classify_document`: the path taken when no platform
prior applies (no platform given, empty platform string, or unrecognized
platform key). -/
def classifyNoPlatform (doc : RawDocument) : ClassificationResult :=
  let urlSig := urlSignal doc.url
  let kwSig := keywordSignal (contentText doc)
  match urlSig, kwSig with
  | some (ut, ub), some (kt, kb) =>
    if ut = kt then ⟨ut, min (mkRat 5 10 + ub + kb) 1⟩
    else if ub ≤ kb then ⟨kt, min (mkRat 5 10 + kb) 1⟩
    else ⟨ut, min (mkRat 5 10 + ub) 1⟩
  | some (ut, ub), none => ⟨ut, min (mkRat 5 10 + ub) 1⟩
  | none, some (kt, kb) => ⟨kt, min (mkRat 5 10 + kb) 1⟩
  | none, none =>
    if legacyHit doc then ⟨normalizedHint doc, mkRat 55 100⟩ else fallbackResult

/-- Embeds `classify_document`. -/
def classifyDocument (doc : RawDocument) (platformType : Option Str) :
    ClassificationResult :=
  match platformType with
  | some s =>
    if s = [] then classifyNoPlatform doc
    else
      match lookupAssoc platformTypeDefaults (lowerStr s) with
      | some (dt, conf) =>
        if mkRat 9 10 ≤ conf then ⟨dt, conf⟩
        else
          let urlSig := urlSignal doc.url
          let kwSig := keywordSignal (contentText doc)
          match urlSig, kwSig with
          | some (ut, ub), some (kt, kb) =>
            if ut = kt then ⟨ut, min (conf + ub + kb) 1⟩
            else if ub ≤ kb then ⟨kt, min (conf + kb) 1⟩
            else ⟨ut, min (conf + ub) 1⟩
          | some (ut, ub), none => ⟨ut, min (conf + ub) 1⟩
          | none, some (kt, kb) => ⟨kt, min (conf + kb) 1⟩
          | none, none => ⟨dt, conf⟩
      | none => classifyNoPlatform doc
  | none => classifyNoPlatform doc

/-!
The deduplication gate of `dedup/deduplicator.py`, on its in-memory
fallback path (`_InMemoryFallback`): the hash store is a set of hash
strings.  `hashlib.sha256(...).hexdigest()` is an external library
function; it is modelled by an arbitrary function `hashFn` on the payload
string, so every theorem below holds for the real SHA-256 as well — the
proofs use only that equal payloads yield equal hashes, never injectivity.
-/

/-- Embeds `Deduplicator._compute_hash`: the hash of
`f"{doc.url}:{doc.raw_text}"`. -/
def computeHash (hashFn : Str → Str) (doc : RawDocument) : Str :=
  hashFn (doc.url ++ ':' :: doc.raw_text)

/-- The in-memory fallback hash store (`_InMemoryFallback._hashes`, a Python
set). -/
abbrev SeenHashes := Finset Str

/-- Embeds `is_duplicate` on the fallback path: membership of the content
hash in the seen-hash set; the store is not mutated. -/
def isDuplicate (hashFn : Str → Str) (store : SeenHashes) (doc : RawDocument) :
    Bool :=
  decide (computeHash hashFn doc ∈ store)

/-- Embeds `mark_seen` on the fallback path: add the content hash to the
seen-hash set. -/
def markSeen (hashFn : Str → Str) (store : SeenHashes) (doc : RawDocument) :
    SeenHashes :=
  insert (computeHash hashFn doc) store

/-!
Theorems.
-/

/-- C5: dedup monotonicity.  From a store with no marked hashes,
`is_duplicate d` is false before `mark_seen d` and true after; any document
with the same `(url, raw_text)` is then also a duplicate, whatever its
other fields; and `mark_seen` is idempotent (from any store).  Stated for
every hash function, hence in particular for SHA-256 of
`url + ":" + raw_text`. -/
theorem dedup_monotonicity (hashFn : Str → Str) (d d' : RawDocument)
    (s : SeenHashes) (hurl : d'.url = d.url) (htext : d'.raw_text = d.raw_text) :
    isDuplicate hashFn ∅ d = false ∧
    isDuplicate hashFn (markSeen hashFn ∅ d) d = true ∧
    isDuplicate hashFn (markSeen hashFn ∅ d) d' = true ∧
    markSeen hashFn (markSeen hashFn s d) d = markSeen hashFn s d := by
  have hsame : computeHash hashFn d' = computeHash hashFn d := by
    unfold computeHash
    rw [hurl, htext]
  refine ⟨?_, ?_, ?_, ?_⟩
  · simp [isDuplicate]
  · simp [isDuplicate, markSeen]
  · simp [isDuplicate, markSeen, hsame]
  · simp [markSeen, Finset.insert_idem]

/-- Witness for C5 at a concrete hash function, document and twin document
differing only in non-hashed fields. -/
theorem dedup_monotonicity_witness :
    isDuplicate (fun s => s) ∅
      ⟨"https://pd.ca.gov/f".toList, "ag1".toList, "alert".toList,
        some ("T1".toList), "body text".toList, none, []⟩ = false ∧
    isDuplicate (fun s => s)
      (markSeen (fun s => s) ∅
        ⟨"https://pd.ca.gov/f".toList, "ag1".toList, "alert".toList,
          some ("T1".toList), "body text".toList, none, []⟩)
      ⟨"https://pd.ca.gov/f".toList, "ag2".toList, "rss_feed".toList,
        none, "body text".toList, some 7, []⟩ = true := by
  have h := dedup_monotonicity (fun s => s)
    ⟨"https://pd.ca.gov/f".toList, "ag1".toList, "alert".toList,
      some ("T1".toList), "body text".toList, none, []⟩
    ⟨"https://pd.ca.gov/f".toList, "ag2".toList, "rss_feed".toList,
      none, "body text".toList, some 7, []⟩
    ∅ rfl rfl
  exact ⟨h.1, h.2.2.1⟩

/-- C10: the colon-joined hash payload is not injective in
`(url, raw_text)`: the documents (url "a:b", raw_text "c") and (url "a",
raw_text "b:c") have different field pairs but the identical payload
"a:b:c", so they collide under every hash function, and marking one makes
the other a duplicate. -/
theorem dedup_hash_payload_not_injective (hashFn : Str → Str) :
    (("a:b".toList, "c".toList) : Str × Str) ≠ ("a".toList, "b:c".toList) ∧
    computeHash hashFn ⟨"a:b".toList, "ag".toList, [], none, "c".toList, none, []⟩ =
      computeHash hashFn ⟨"a".toList, "ag".toList, [], none, "b:c".toList, none, []⟩ ∧
    isDuplicate hashFn
      (markSeen hashFn ∅
        ⟨"a:b".toList, "ag".toList, [], none, "c".toList, none, []⟩)
      ⟨"a".toList, "ag".toList, [], none, "b:c".toList, none, []⟩ = true := by
  refine ⟨by decide, rfl, ?_⟩
  simp [isDuplicate, markSeen]
  rfl

/-- C9: empty or whitespace-only raw text short-circuits to an empty
cleaned text with quality score 0, for every platform rule-set. -/
theorem clean_blank_input (rawText platformType : Str)
    (h : pyStrip rawText = []) :
    cleanDocument rawText platformType = ⟨[], 0⟩ := by
  unfold cleanDocument
  rw [if_pos (Or.inr h)]

/-- Witness for C9 on a whitespace-only input and the pdf rule-set. -/
theorem clean_blank_input_witness :
    pyStrip (" \t ".toList) = [] ∧
    cleanDocument (" \t ".toList) ("pdf".toList) = ⟨[], 0⟩ :=
  ⟨by decide, clean_blank_input _ _ (by decide)⟩

/-- C8: the `"rave"` platform key is a rule-set alias of `"nixle"`: the
cleaner returns the identical result (cleaned text and quality score) for
the two keys on every input. -/
theorem clean_rave_nixle_alias (rawText : Str) :
    cleanDocument rawText ("rave".toList) = cleanDocument rawText ("nixle".toList) := rfl

/-- C3: a recognized platform key (matched case-insensitively) whose prior
confidence is at least 0.9 short-circuits classification to the platform's
fixed `(document_type, confidence)` pair, for every document; the keys with
prior at least 0.9 are exactly crimemapping, citizenrims, nixle and rave;
and `"crimemapping"` always yields `(crimemapping_incident, 1.0)`. -/
theorem classify_platform_short_circuit (doc : RawDocument) (s dt : Str)
    (conf : ℚ)
    (hlook : lookupAssoc platformTypeDefaults (lowerStr s) = some (dt, conf))
    (hconf : mkRat 9 10 ≤ conf) :
    classifyDocument doc (some s) = ⟨dt, conf⟩ ∧
    (platformTypeDefaults.filter fun e => decide (mkRat 9 10 ≤ e.2.2)).map (·.1) =
      [("crimemapping".toList), ("citizenrims".toList), ("nixle".toList),
       ("rave".toList)] ∧
    classifyDocument doc (some ("crimemapping".toList)) =
      ⟨"crimemapping_incident".toList, 1⟩ := by
  refine ⟨?_, by decide, rfl⟩
  have hs : s ≠ [] := by
    intro hnil
    rw [hnil] at hlook
    simp [lookupAssoc, lowerStr, platformTypeDefaults] at hlook
  show (if s = [] then _ else _) = _
  rw [if_neg hs, hlook]
  simp only [if_pos hconf]

/-- Witness for C3: `"CrimeMapping"` (mixed case) on a document whose URL,
title, text and hint all point elsewhere. -/
theorem classify_platform_short_circuit_witness :
    lookupAssoc platformTypeDefaults (lowerStr ("CrimeMapping".toList)) =
      some ("crimemapping_incident".toList, 1) ∧
    classifyDocument
      ⟨"https://city.gov/arrest/bolo".toList, "ag1".toList, "alert".toList,
        some ("arrested booking bail".toList), "wanted advisory".toList,
        none, []⟩
      (some ("CrimeMapping".toList)) = ⟨"crimemapping_incident".toList, 1⟩ :=
  ⟨by decide,
   (classify_platform_short_circuit
     ⟨"https://city.gov/arrest/bolo".toList, "ag1".toList, "alert".toList,
       some ("arrested booking bail".toList), "wanted advisory".toList,
       none, []⟩
     ("CrimeMapping".toList) ("crimemapping_incident".toList) 1
     (by decide) (by norm_num)).1⟩

/-- The claim-side condition "platform_type absent or not a recognized
platform key" (the empty string is falsy in the source's `if platform_type:`
and is not a recognized key). -/
def NoRecognizedPlatform : Option Str → Prop
  | none => True
  | some s => s = [] ∨ lookupAssoc platformTypeDefaults (lowerStr s) = none

theorem classify_eq_noPlatform (doc : RawDocument) (pt : Option Str)
    (hnp : NoRecognizedPlatform pt) :
    classifyDocument doc pt = classifyNoPlatform doc := by
  match pt with
  | none => rfl
  | some s =>
    rcases hnp with hs | hlook
    · subst hs
      rfl
    · show (if s = [] then _ else _) = _
      by_cases hs : s = []
      · rw [if_pos hs]
      · rw [if_neg hs, hlook]

/-- C2: classification with no platform prior.  With both signals firing
and agreeing, confidence is `min(1, 0.5 + url_boost + keyword_boost)`; on
disagreement the numerically larger boost wins (keyword wins ties) with
confidence `min(1, 0.5 + chosen_boost)`; with exactly one signal, that
signal's type and `min(1, 0.5 + its boost)`; with neither, the normalized
hint at confidence 0.55 when it is canonical, else `(press_release, 0.4)`. -/
theorem classify_no_prior_combination (doc : RawDocument) (pt : Option Str)
    (hnp : NoRecognizedPlatform pt) :
    (∀ ut kt : Str, ∀ ub kb : ℚ,
      urlSignal doc.url = some (ut, ub) →
      keywordSignal (contentText doc) = some (kt, kb) →
      (ut = kt →
        classifyDocument doc pt = ⟨ut, min (mkRat 5 10 + ub + kb) 1⟩) ∧
      (ut ≠ kt → ub < kb →
        classifyDocument doc pt = ⟨kt, min (mkRat 5 10 + kb) 1⟩) ∧
      (ut ≠ kt → kb < ub →
        classifyDocument doc pt = ⟨ut, min (mkRat 5 10 + ub) 1⟩) ∧
      (ut ≠ kt → ub = kb →
        classifyDocument doc pt = ⟨kt, min (mkRat 5 10 + kb) 1⟩)) ∧
    (∀ ut : Str, ∀ ub : ℚ,
      urlSignal doc.url = some (ut, ub) →
      keywordSignal (contentText doc) = none →
      classifyDocument doc pt = ⟨ut, min (mkRat 5 10 + ub) 1⟩) ∧
    (∀ kt : Str, ∀ kb : ℚ,
      urlSignal doc.url = none →
      keywordSignal (contentText doc) = some (kt, kb) →
      classifyDocument doc pt = ⟨kt, min (mkRat 5 10 + kb) 1⟩) ∧
    (urlSignal doc.url = none →
      keywordSignal (contentText doc) = none →
      (legacyHit doc = true →
        classifyDocument doc pt = ⟨normalizedHint doc, mkRat 55 100⟩) ∧
      (legacyHit doc = false →
        classifyDocument doc pt = ⟨"press_release".toList, mkRat 4 10⟩)) := by
  have hbase := classify_eq_noPlatform doc pt hnp
  refine ⟨?_, ?_, ?_, ?_⟩
  · intro ut kt ub kb hu hk
    refine ⟨?_, ?_, ?_, ?_⟩
    · intro heq
      rw [hbase]
      unfold classifyNoPlatform
      rw [hu, hk]
      simp [heq]
    · intro hne hlt
      rw [hbase]
      unfold classifyNoPlatform
      rw [hu, hk]
      simp [hne, le_of_lt hlt]
    · intro hne hlt
      rw [hbase]
      unfold classifyNoPlatform
      rw [hu, hk]
      simp [hne, not_le_of_gt hlt]
    · intro hne heq
      rw [hbase]
      unfold classifyNoPlatform
      rw [hu, hk]
      simp [hne, le_of_eq heq]
  · intro ut ub hu hk
    rw [hbase]
    unfold classifyNoPlatform
    rw [hu, hk]
  · intro kt kb hu hk
    rw [hbase]
    unfold classifyNoPlatform
    rw [hu, hk]
  · intro hu hk
    constructor
    · intro hleg
      rw [hbase]
      unfold classifyNoPlatform
      rw [hu, hk]
      simp [hleg]
    · intro hleg
      rw [hbase]
      unfold classifyNoPlatform
      rw [hu, hk]
      simp [hleg, fallbackResult]

/-- Witness for C2: a document whose URL fires the arrest-log pattern while
no keyword signal fires, classified with no platform argument. -/
theorem classify_no_prior_combination_witness :
    NoRecognizedPlatform none ∧
    urlSignal ("https://x.example.com/arrest/2024".toList) =
      some ("arrest_log".toList, mkRat 25 100) ∧
    keywordSignal (contentText
      ⟨"https://x.example.com/arrest/2024".toList, "ag1".toList, [],
        some ("weekly recap".toList), "nothing notable today".toList,
        none, []⟩) = none ∧
    classifyDocument
      ⟨"https://x.example.com/arrest/2024".toList, "ag1".toList, [],
        some ("weekly recap".toList), "nothing notable today".toList,
        none, []⟩ none =
      ⟨"arrest_log".toList, min (mkRat 5 10 + mkRat 25 100) 1⟩ :=
  ⟨trivial, by decide, by decide,
   (classify_no_prior_combination
     ⟨"https://x.example.com/arrest/2024".toList, "ag1".toList, [],
       some ("weekly recap".toList), "nothing notable today".toList,
       none, []⟩ none trivial).2.1
     ("arrest_log".toList) (mkRat 25 100) (by decide) (by decide)⟩

theorem protected_line_processBoilerplate (pats : List BPat) (line : Str)
    (hp : isProtectedLine line = true) :
    processBoilerplateLine pats line = line := by
  simp [processBoilerplateLine, hp]

/-- C1 (counterexample): a protected line is not necessarily present, as
that exact line, in the final cleaned text — the whitespace-normalization
stage collapses its double space even though the line carries a case-number
pattern.  The claim as stated over the whole of `clean` therefore fails. -/
theorem clean_protected_line_pipeline_counterexample :
    isProtectedLine ("Case# 123  found".toList) = true ∧
    ("Case# 123  found".toList) ∈ splitLines ("Case# 123  found".toList) ∧
    ("Case# 123  found".toList) ∉
      splitLines
        (cleanDocument ("Case# 123  found".toList) ("default".toList)).cleaned_text := by
  refine ⟨by decide, by decide, by decide⟩

/-- C1 (amended): protected-identifier preservation holds at the
boilerplate-removal stage, for every platform rule-set: any line of the
stage input (for the pdf rule-set, the text after hyphenated line-break
joining) that contains a case number, CAD number, street address, date or
phone number pattern is passed through unchanged by the per-line pattern
loop and appears verbatim as a line of the stage output. -/
theorem clean_protected_line_boilerplate_stage (text platformType line : Str)
    (hmem : line ∈ splitLines (pdfAdjustedInput text platformType))
    (hp : isProtectedLine line = true) :
    processBoilerplateLine
      ((boilerplatePatternsFor (effectivePlatform platformType)).getD
        defaultPatterns) line = line ∧
    line ∈ splitLines (removeBoilerplate text platformType) := by
  refine ⟨protected_line_processBoilerplate _ line hp, ?_⟩
  unfold removeBoilerplate
  have hnl : '\n' ∉ line := splitLines_no_newline _ line hmem
  apply mem_splitLines_joinLines _ line _ hnl
  have := List.mem_map_of_mem
    (processBoilerplateLine
      ((boilerplatePatternsFor (effectivePlatform platformType)).getD
        defaultPatterns)) hmem
  rwa [protected_line_processBoilerplate _ line hp] at this

/-- Witness for the amended C1: a street-address line inside a pdf-platform
document whose other line is letterhead-style boilerplate. -/
theorem clean_protected_line_boilerplate_stage_witness :
    ("123 N. Main St.".toList) ∈
      splitLines (pdfAdjustedInput ("CONFIDENTIAL\n123 N. Main St.".toList)
        ("pdf".toList)) ∧
    isProtectedLine ("123 N. Main St.".toList) = true ∧
    ("123 N. Main St.".toList) ∈
      splitLines (removeBoilerplate ("CONFIDENTIAL\n123 N. Main St.".toList)
        ("pdf".toList)) :=
  ⟨by decide, by decide,
   (clean_protected_line_boilerplate_stage
     ("CONFIDENTIAL\n123 N. Main St.".toList) ("pdf".toList)
     ("123 N. Main St.".toList) (by decide) (by decide)).2⟩

/-- The quality-score formula exactly as the specification states it: base
`100 − floor(80 × removal_fraction)` clamped to be nonnegative, bonuses
+10 / +10 / +5 for a date, a case/CAD/report-number and a street-address
pattern in the cleaned text, the total capped at 100, and the result capped
at 30 when the trimmed cleaned text is under 50 characters.  The floor of
`80 × (len(original) − len(cleaned)) / len(original)` is `Int.fdiv` by the
positive denominator. -/
def specQualityScore (original cleaned : Str) : ℤ :=
  let base : ℤ :=
    max 0 (100 - Int.fdiv (80 * ((original.length : ℤ) - (cleaned.length : ℤ)))
      (original.length : ℤ))
  let bonus : ℤ :=
    (if cmSearch dateQualityPat cleaned then 10 else 0) +
    (if cmSearch cadQualityPat cleaned then 10 else 0) +
    (if cmSearch addressQualityPat cleaned then 5 else 0)
  let score := min 100 (base + bonus)
  if (pyStrip cleaned).length < 50 then min score 30 else score

theorem computeQualityScore_eq_spec (original cleaned : Str)
    (h : original ≠ []) :
    computeQualityScore original cleaned = specQualityScore original cleaned := by
  unfold computeQualityScore specQualityScore
  rw [if_neg h]
  have hopos : 0 < (original.length : ℤ) := by
    have : original.length ≠ 0 := by
      intro hz
      exact h (List.eq_nil_of_length_eq_zero hz)
    omega
  set n : ℤ := 80 * ((original.length : ℤ) - (cleaned.length : ℤ)) with hn
  set o : ℤ := (original.length : ℤ) with ho
  by_cases hnn : 0 ≤ n
  · rw [Int.fdiv_eq_tdiv hnn (le_of_lt hopos)]
  · -- negative removal: both divisions are nonpositive, so both bases are
    -- at least 100 and the cap at 100 makes the scores agree.
    have htd : Int.tdiv n o ≤ 0 := by
      have h1 : (0:ℤ) ≤ Int.tdiv (-n) o :=
        Int.tdiv_nonneg (by omega) (le_of_lt hopos)
      have h2 : Int.tdiv (-n) o = -Int.tdiv n o := Int.neg_tdiv n o
      omega
    have hfd : Int.fdiv n o ≤ 0 := by
      rw [Int.fdiv_eq_ediv n (le_of_lt hopos)]
      have h1 : n / o ≤ 0 / o := Int.ediv_le_ediv hopos (by omega)
      simpa using h1
    have hb : ∀ d : ℤ, d ≤ 0 →
        ∀ bonus : ℤ, 0 ≤ bonus →
        min 100 (max 0 (100 - d) + bonus) = 100 := by
      intro d hd bonus hbon
      have h1 : (100 : ℤ) - d ≤ max 0 (100 - d) := le_max_right _ _
      exact min_eq_left (by omega)
    have hbon : (0:ℤ) ≤
        (if cmSearch dateQualityPat cleaned then 10 else 0) +
        (if cmSearch cadQualityPat cleaned then 10 else 0) +
        (if cmSearch addressQualityPat cleaned then 5 else 0) := by
      split_ifs <;> norm_num
    simp only [hb _ htd _ hbon, hb _ hfd _ hbon]

/-- C4 (counterexample): for the non-empty, whitespace-only raw text `" "`
the cleaner short-circuits to score 0, while the stated formula yields 20
(removal fraction 1, base 20, no bonuses, cap at 30 inactive on 20) — so
the claim fails for non-empty whitespace-only input. -/
theorem clean_quality_score_counterexample :
    ((" ".toList : Str) ≠ []) ∧
    (cleanDocument (" ".toList) ("default".toList)).quality_score = 0 ∧
    specQualityScore (" ".toList)
      (cleanDocument (" ".toList) ("default".toList)).cleaned_text = 20 := by
  refine ⟨by decide, by decide, by decide⟩

/-- C4 (amended): for every raw text containing at least one
non-whitespace character (so that the empty-input short-circuit does not
apply), the quality score of the cleaning result equals the stated formula
evaluated on the original raw text and the returned cleaned text. -/
theorem clean_quality_score_formula (rawText platformType : Str)
    (h : pyStrip rawText ≠ []) :
    (cleanDocument rawText platformType).quality_score =
      specQualityScore rawText
        (cleanDocument rawText platformType).cleaned_text := by
  have hraw : rawText ≠ [] := by
    intro hnil
    exact h (by simp [hnil, pyStrip])
  have hguard : ¬(rawText = [] ∨ pyStrip rawText = []) := by
    rintro (h1 | h2)
    · exact hraw h1
    · exact h h2
  simp only [cleanDocument, if_neg hguard]
  exact computeQualityScore_eq_spec _ _ hraw

/-- Witness for the amended C4 on a small concrete document. -/
theorem clean_quality_score_formula_witness :
    pyStrip ("Log for 2024-01-05".toList) ≠ [] ∧
    (cleanDocument ("Log for 2024-01-05".toList) ("default".toList)).quality_score =
      specQualityScore ("Log for 2024-01-05".toList)
        (cleanDocument ("Log for 2024-01-05".toList) ("default".toList)).cleaned_text :=
  ⟨by decide, clean_quality_score_formula _ _ (by decide)⟩

/-- The pagination pattern as the specification words it: "Page N of M"
matched case-insensitively.  (The source pattern `[Pp]age...of...` only
allows a capitalised or lowercase initial letter with the rest lowercase.) -/
def pageLinePatInsensitive : CM :=
  cmSeqs [wsS, cmLitI ("page".toList), ws1, digits1, ws1, cmLitI ("of".toList),
    ws1, digits1, wsS, cmEnd]

/-- Whether a line is a standalone "Page N of M" line under the claim's
case-insensitive reading. -/
def lineIsPdfPageInsensitive (line : Str) : Bool :=
  cmMatchAtStart pageLinePatInsensitive line

/-- C7 (counterexample): the pattern is not case-insensitive.  The
standalone line `"PAGE 1 OF 2"` is of the claimed case-insensitive form and
survives default boilerplate removal, yet it is still present in the final
cleaned output because `_PDF_PAGE_RE` requires `[Pp]age ... of ...` with
lowercase tails. -/
theorem pdf_page_removal_counterexample :
    lineIsPdfPageInsensitive ("PAGE 1 OF 2".toList) = true ∧
    lineIsPdfPage ("PAGE 1 OF 2".toList) = false ∧
    ("PAGE 1 OF 2".toList) ∈
      splitLines (removeBoilerplate
        ("PAGE 1 OF 2\nIncident summary follows here.".toList)
        ("default".toList)) ∧
    ("PAGE 1 OF 2".toList) ∈
      splitLines (cleanDocument
        ("PAGE 1 OF 2\nIncident summary follows here.".toList)
        ("default".toList)).cleaned_text := by
  refine ⟨by decide, by decide, by decide, by decide⟩

theorem splitLines_joinLines (ls : List Str) (hne : ls ≠ [])
    (hnl : ∀ x ∈ ls, '\n' ∉ x) : splitLines (joinLines ls) = ls := by
  induction ls with
  | nil => exact absurd rfl hne
  | cons y ys ih =>
    rcases ys with _ | ⟨z, zs⟩
    · simp [joinLines, splitLines_of_no_newline y (hnl y (List.mem_cons_self y []))]
    · rw [show joinLines (y :: z :: zs) = y ++ '\n' :: joinLines (z :: zs) from rfl,
        splitLines_append_newline,
        splitLines_of_no_newline y (hnl y (List.mem_cons_self y (z :: zs))),
        ih (by simp) fun x hx => hnl x (List.mem_cons_of_mem y hx)]
      rfl

theorem lineIsPdfPage_nil : lineIsPdfPage [] = false := by decide

/-- C7 (amended): removal is effective for the pattern as compiled: after
the pagination-artifact stage (`_PDF_PAGE_RE.sub`), no line of the text
matches the `[Pp]age N of M` pattern — every matching line is emptied at
that stage.  (Fully capitalised variants are not matched and so not
removed, and later stages can re-form such a line, e.g. by dropping
category-C characters, so the guarantee is stated at this stage.) -/
theorem pdf_page_sub_removes_matching_lines (text line : Str)
    (hmem : line ∈ splitLines (pdfPageSub text)) :
    lineIsPdfPage line = false := by
  unfold pdfPageSub at hmem
  rw [splitLines_joinLines _ (by simp [splitLines_ne_nil])
    (by
      intro x hx
      rcases List.mem_map.mp hx with ⟨orig, horig, hfx⟩
      by_cases hpage : lineIsPdfPage orig
      · rw [if_pos hpage] at hfx
        simp [← hfx]
      · rw [if_neg hpage] at hfx
        exact hfx ▸ splitLines_no_newline text orig horig)] at hmem
  rcases List.mem_map.mp hmem with ⟨orig, _, hfx⟩
  by_cases hpage : lineIsPdfPage orig
  · rw [if_pos hpage] at hfx
    rw [← hfx]
    exact lineIsPdfPage_nil
  · rw [if_neg hpage] at hfx
    rw [← hfx]
    exact eq_false_of_ne_true hpage

/-- Witness for the amended C7: after the pagination stage the remaining
line of a two-line text is not a pagination line. -/
theorem pdf_page_sub_removes_matching_lines_witness :
    ("Incident text".toList) ∈
      splitLines (pdfPageSub ("Page 1 of 2\nIncident text".toList)) ∧
    lineIsPdfPage ("Incident text".toList) = false :=
  ⟨by decide,
   pdf_page_sub_removes_matching_lines ("Page 1 of 2\nIncident text".toList)
     ("Incident text".toList) (by decide)⟩

theorem urlSignal_bounds (url : Str) (t : Str) (b : ℚ)
    (h : urlSignal url = some (t, b)) : 0 ≤ b ∧ b ≤ 1 := by
  unfold urlSignal at h
  obtain ⟨e, hmem, hfe⟩ := List.exists_of_findSome?_eq_some h
  fin_cases hmem <;> split at hfe <;> simp_all <;>
    rw [← hfe.2] <;> constructor <;> decide

theorem keywordStep_bounds (lowered : Str) (acc : Option Str × ℚ)
    (e : Str × List Str) (hacc : 0 ≤ acc.2 ∧ acc.2 ≤ mkRat 3 10) :
    0 ≤ (keywordStep lowered acc e).2 ∧
      (keywordStep lowered acc e).2 ≤ mkRat 3 10 := by
  simp only [keywordStep]
  split_ifs with h1 h2
  · refine ⟨le_min ?_ (by decide), min_le_right _ _⟩
    exact mul_nonneg (Nat.cast_nonneg _) (by decide)
  · exact hacc
  · exact hacc

theorem keywordFold_bounds (lowered : Str) (l : List (Str × List Str))
    (acc : Option Str × ℚ) (hacc : 0 ≤ acc.2 ∧ acc.2 ≤ mkRat 3 10) :
    0 ≤ (l.foldl (keywordStep lowered) acc).2 ∧
      (l.foldl (keywordStep lowered) acc).2 ≤ mkRat 3 10 := by
  induction l generalizing acc with
  | nil => exact hacc
  | cons e es ih => exact ih _ (keywordStep_bounds lowered acc e hacc)

theorem keywordSignal_bounds (text : Str) (t : Str) (b : ℚ)
    (h : keywordSignal text = some (t, b)) : 0 ≤ b ∧ b ≤ 1 := by
  simp only [keywordSignal] at h
  have hfold := keywordFold_bounds (lowerStr text) keywordSignals (none, 0)
    ⟨by decide, by decide⟩
  rcases hbest : (keywordSignals.foldl (keywordStep (lowerStr text))
      (none, (0:ℚ))).1 with _ | t'
  · rw [hbest] at h
    cases h
  · rw [hbest] at h
    injection h with h'
    injection h' with ht hb
    rw [← hb]
    exact ⟨hfold.1, le_trans hfold.2 (by decide)⟩

theorem platformDefaults_conf_bounds (key dt : Str) (conf : ℚ)
    (h : lookupAssoc platformTypeDefaults key = some (dt, conf)) :
    0 ≤ conf ∧ conf ≤ 1 := by
  unfold lookupAssoc at h
  rcases hfind : platformTypeDefaults.find? (fun e => e.1 = key) with _ | e
  · rw [hfind] at h
    cases h
  · rw [hfind] at h
    have hmem := List.mem_of_find?_eq_some hfind
    simp only [Option.map_some'] at h
    injection h with h'
    fin_cases hmem <;> rw [show conf = (Prod.mk dt conf).2 from rfl, ← h'] <;>
      constructor <;> decide

theorem classifyNoPlatform_conf_bounds (doc : RawDocument) :
    0 ≤ (classifyNoPlatform doc).confidence ∧
      (classifyNoPlatform doc).confidence ≤ 1 := by
  unfold classifyNoPlatform
  rcases hu : urlSignal doc.url with _ | ⟨ut, ub⟩ <;>
    rcases hk : keywordSignal (contentText doc) with _ | ⟨kt, kb⟩
  · by_cases hleg : legacyHit doc <;>
      simp only [hleg, fallbackResult, if_true, if_false, Bool.false_eq_true] <;>
      exact ⟨by decide, by decide⟩
  · obtain ⟨hk0, _⟩ := keywordSignal_bounds _ _ _ hk
    simp only []
    refine ⟨le_min (by linarith [show (0:ℚ) ≤ mkRat 5 10 from by decide])
      (by decide), min_le_right _ _⟩
  · obtain ⟨hu0, _⟩ := urlSignal_bounds _ _ _ hu
    simp only []
    refine ⟨le_min (by linarith [show (0:ℚ) ≤ mkRat 5 10 from by decide])
      (by decide), min_le_right _ _⟩
  · obtain ⟨hu0, _⟩ := urlSignal_bounds _ _ _ hu
    obtain ⟨hk0, _⟩ := keywordSignal_bounds _ _ _ hk
    simp only []
    split_ifs <;>
      refine ⟨le_min (by linarith [show (0:ℚ) ≤ mkRat 5 10 from by decide])
        (by decide), min_le_right _ _⟩

/-- C6: for every document and every platform argument (absent,
unrecognized, empty or adversarial), the confidence returned by the
classifier lies in the closed interval [0, 1]. -/
theorem classify_confidence_bounds (doc : RawDocument) (pt : Option Str) :
    0 ≤ (classifyDocument doc pt).confidence ∧
      (classifyDocument doc pt).confidence ≤ 1 := by
  match pt with
  | none => exact classifyNoPlatform_conf_bounds doc
  | some s =>
    simp only [classifyDocument]
    by_cases hs : s = []
    · rw [if_pos hs]
      exact classifyNoPlatform_conf_bounds doc
    · rw [if_neg hs]
      rcases hlook : lookupAssoc platformTypeDefaults (lowerStr s) with _ | ⟨dt, conf⟩
      · exact classifyNoPlatform_conf_bounds doc
      · obtain ⟨hc0, hc1⟩ := platformDefaults_conf_bounds _ _ _ hlook
        simp only []
        by_cases h9 : mkRat 9 10 ≤ conf
        · rw [if_pos h9]
          exact ⟨hc0, hc1⟩
        · rw [if_neg h9]
          rcases hu : urlSignal doc.url with _ | ⟨ut, ub⟩ <;>
            rcases hk : keywordSignal (contentText doc) with _ | ⟨kt, kb⟩
          · exact ⟨hc0, hc1⟩
          · obtain ⟨hk0, _⟩ := keywordSignal_bounds _ _ _ hk
            simp only []
            exact ⟨le_min (by linarith) (by decide), min_le_right _ _⟩
          · obtain ⟨hu0, _⟩ := urlSignal_bounds _ _ _ hu
            simp only []
            exact ⟨le_min (by linarith) (by decide), min_le_right _ _⟩
          · obtain ⟨hu0, _⟩ := urlSignal_bounds _ _ _ hu
            obtain ⟨hk0, _⟩ := keywordSignal_bounds _ _ _ hk
            simp only []
            split_ifs <;>
              exact ⟨le_min (by linarith) (by decide), min_le_right _ _⟩

end Cadence
